import Mathlib

/-!
Shallow embedding of `src/hooks/useStore.ts`: a tldraw/Yjs synchronization
hook. The Replicated Log (the `YKeyValue` named `yStore`) and the Local
Store (the tldraw store) are both modelled as association lists from
string keys to records; the handlers of the hook are translated into pure
functions over that state, with the effects they perform (transactions
opened, merges requested, alerts raised, objects destroyed) made explicit
in their return values.
-/

/-- Scope of a tldraw record: document-scope records are synchronized to
the Yjs document, session and presence records are ephemeral. -/
inductive RecScope where
  | document
  | session
  | presence
deriving DecidableEq, Repr

/-- A tldraw record, abstracted: a string id, a scope (derived in tldraw
from the record's type) and an opaque payload. -/
structure TLRec where
  id : String
  scope : RecScope
  val : Nat
deriving DecidableEq, Repr

/-- Key-value state shared by the model of the `YKeyValue` log and of the
tldraw store: an association list from string keys to records. -/
abbrev KV := List (String × TLRec)

/-- Lookup of a key (first match), as `YKeyValue.get` / store lookup. -/
def kvGet : KV → String → Option TLRec
  | [], _ => none
  | (k, v) :: t, q => if q = k then some v else kvGet t q

/-- Deletion of a key, as `YKeyValue.delete` / `store.remove` of one id. -/
def kvDelete (k : String) : KV → KV
  | [] => []
  | (k0, v) :: t => if k0 = k then kvDelete k t else (k0, v) :: kvDelete k t

/-- Upsert, as `YKeyValue.set` (delete any previous entry, append the new
one) / `store.put` of one record under key `k`. -/
def kvSet (k : String) (v : TLRec) (m : KV) : KV :=
  kvDelete k m ++ [(k, v)]

theorem kvGet_append (l1 l2 : KV) (q : String) :
    kvGet (l1 ++ l2) q =
      match kvGet l1 q with
      | some v => some v
      | none => kvGet l2 q := by
  induction l1 with
  | nil => simp [kvGet]
  | cons p t ih =>
    obtain ⟨k, v⟩ := p
    by_cases h : q = k <;> simp [kvGet, h, ih]

theorem kvGet_kvDelete (k : String) (m : KV) (q : String) :
    kvGet (kvDelete k m) q = if q = k then none else kvGet m q := by
  induction m with
  | nil => simp [kvGet, kvDelete]
  | cons p t ih =>
    obtain ⟨k0, v⟩ := p
    by_cases h0 : k0 = k
    · by_cases hq : q = k0 <;> simp [kvDelete, kvGet, h0, hq, ih] <;> simp_all
    · by_cases hq : q = k0
      · subst hq
        simp [kvDelete, kvGet, h0, ih]
      · simp [kvDelete, kvGet, h0, hq, ih]

theorem kvGet_kvSet (k : String) (v : TLRec) (m : KV) (q : String) :
    kvGet (kvSet k v m) q = if q = k then some v else kvGet m q := by
  unfold kvSet
  rw [kvGet_append]
  by_cases h : q = k <;> simp [kvGet_kvDelete, h, kvGet] <;>
    cases kvGet m q <;> rfl

theorem kvGet_mem {m : KV} {k : String} {v : TLRec} (h : kvGet m k = some v) :
    (k, v) ∈ m := by
  induction m with
  | nil => simp [kvGet] at h
  | cons p t ih =>
    obtain ⟨k0, v0⟩ := p
    by_cases hq : k = k0
    · subst hq
      simp [kvGet] at h
      simp [h]
    · simp [kvGet, hq] at h
      exact List.mem_cons_of_mem _ (ih h)

/-! ### Sync Bridge: Local Store to Replicated Log (`syncStoreChangesToYjsDoc`) -/

/-- A change set delivered by a store change notification:
`{added, updated, removed}` where `updated` pairs the old and the new
record. -/
structure ChangeSet where
  added : List TLRec
  updated : List (TLRec × TLRec)
  removed : List TLRec
deriving DecidableEq, Repr

/-- The listener `syncStoreChangesToYjsDoc`: opens one `yDoc.transact` and
inside it sets every added record under its id, sets every updated
record's new value under its id, and deletes every removed record's id.
Returns the new log together with the number of transactions opened. -/
def syncStoreChangesToYjsDoc (cs : ChangeSet) (log : KV) : KV × Nat :=
  let l1 := cs.added.foldl (fun m r => kvSet r.id r m) log
  let l2 := cs.updated.foldl (fun m p => kvSet p.2.id p.2 m) l1
  let l3 := cs.removed.foldl (fun m r => kvDelete r.id m) l2
  (l3, 1)

/-- The effect of the same change set on the Local Store itself: the
notification reports an atomic local mutation, so the store's new state
adds/updates/removes the same records. -/
def applyChangeSetToStore (cs : ChangeSet) (s : KV) : KV :=
  let s1 := cs.added.foldl (fun m r => kvSet r.id r m) s
  let s2 := cs.updated.foldl (fun m p => kvSet p.2.id p.2 m) s1
  cs.removed.foldl (fun m r => kvDelete r.id m) s2

/-- Lookup restricted to document-scope (non-ephemeral) records of the
Local Store. -/
def docGet (s : KV) (q : String) : Option TLRec :=
  match kvGet s q with
  | some r => if r.scope = RecScope.document then some r else none
  | none => none

/-- Mirror equivalence: the Replicated Log's record set equals the Local
Store's set of non-ephemeral records, pointwise over every key. -/
def Mirror (log store : KV) : Prop :=
  ∀ q : String, kvGet log q = docGet store q

/-- All records mentioned by a change set are document-scope, which is
what the listener's `{source: "user", scope: "document"}` filter
guarantees for the notifications it receives. -/
def DocOnly (cs : ChangeSet) : Prop :=
  (∀ r ∈ cs.added, r.scope = RecScope.document) ∧
  (∀ p ∈ cs.updated, p.2.scope = RecScope.document) ∧
  (∀ r ∈ cs.removed, r.scope = RecScope.document)

instance (cs : ChangeSet) : Decidable (DocOnly cs) := by
  unfold DocOnly
  infer_instance

/-- A sequence of user-originated document edits: each edit mutates the
store and fires the listener, which mirrors it into the log in one
transaction. Returns the final `(store, log)` pair. -/
def processEdits (p : KV × KV) (css : List ChangeSet) : KV × KV :=
  css.foldl
    (fun q cs => (applyChangeSetToStore cs q.1, (syncStoreChangesToYjsDoc cs q.2).1))
    p

theorem docGet_kvSet_doc (k : String) (v : TLRec) (s : KV) (q : String)
    (hv : v.scope = RecScope.document) :
    docGet (kvSet k v s) q = if q = k then some v else docGet s q := by
  unfold docGet
  rw [kvGet_kvSet]
  by_cases h : q = k <;> simp [h, hv]

theorem docGet_kvDelete (k : String) (s : KV) (q : String) :
    docGet (kvDelete k s) q = if q = k then none else docGet s q := by
  unfold docGet
  rw [kvGet_kvDelete]
  by_cases h : q = k <;> simp [h]

theorem mirror_kvSet {log store : KV} (r : TLRec)
    (hm : Mirror log store) (hr : r.scope = RecScope.document) :
    Mirror (kvSet r.id r log) (kvSet r.id r store) := by
  intro q
  rw [kvGet_kvSet, docGet_kvSet_doc _ _ _ _ hr]
  by_cases h : q = r.id <;> simp [h, hm q]

theorem mirror_kvDelete {log store : KV} (k : String) (hm : Mirror log store) :
    Mirror (kvDelete k log) (kvDelete k store) := by
  intro q
  rw [kvGet_kvDelete, docGet_kvDelete]
  by_cases h : q = k <;> simp [h, hm q]

theorem mirror_fold_set {l : List TLRec} :
    ∀ {log store : KV}, Mirror log store →
    (∀ r ∈ l, r.scope = RecScope.document) →
    Mirror (l.foldl (fun m r => kvSet r.id r m) log)
      (l.foldl (fun m r => kvSet r.id r m) store) := by
  induction l with
  | nil => intro log store hm _; exact hm
  | cons r t ih =>
    intro log store hm hd
    simp only [List.foldl_cons]
    exact ih (mirror_kvSet r hm (hd r (List.mem_cons_self r t)))
      (fun x hx => hd x (List.mem_cons_of_mem r hx))

theorem mirror_fold_upd {l : List (TLRec × TLRec)} :
    ∀ {log store : KV}, Mirror log store →
    (∀ p ∈ l, p.2.scope = RecScope.document) →
    Mirror (l.foldl (fun m p => kvSet p.2.id p.2 m) log)
      (l.foldl (fun m p => kvSet p.2.id p.2 m) store) := by
  induction l with
  | nil => intro log store hm _; exact hm
  | cons r t ih =>
    intro log store hm hd
    simp only [List.foldl_cons]
    exact ih (mirror_kvSet r.2 hm (hd r (List.mem_cons_self r t)))
      (fun x hx => hd x (List.mem_cons_of_mem r hx))

theorem mirror_fold_del {l : List TLRec} :
    ∀ {log store : KV}, Mirror log store →
    Mirror (l.foldl (fun m r => kvDelete r.id m) log)
      (l.foldl (fun m r => kvDelete r.id m) store) := by
  induction l with
  | nil => intro log store hm; exact hm
  | cons r t ih =>
    intro log store hm
    simp only [List.foldl_cons]
    exact ih (mirror_kvDelete r.id hm)

theorem mirror_step {log store : KV} (cs : ChangeSet)
    (hm : Mirror log store) (hd : DocOnly cs) :
    Mirror (syncStoreChangesToYjsDoc cs log).1 (applyChangeSetToStore cs store) := by
  obtain ⟨h1, h2, _⟩ := hd
  unfold syncStoreChangesToYjsDoc applyChangeSetToStore
  exact mirror_fold_del (mirror_fold_upd (mirror_fold_set hm h1) h2)

/-- C1. For every sequence of user-originated, document-scope edits,
after each edit's change notification commits its replicated-log
transaction, the Replicated Log's record set equals the Local Store's set
of non-ephemeral records: mirror equivalence is preserved along the whole
sequence. -/
theorem c1_mirror_equivalence (css : List ChangeSet) (store log : KV)
    (hm : Mirror log store) (hd : ∀ cs ∈ css, DocOnly cs) :
    Mirror (processEdits (store, log) css).2 (processEdits (store, log) css).1 := by
  induction css generalizing store log with
  | nil => exact hm
  | cons cs t ih =>
    simp only [processEdits, List.foldl_cons] at *
    exact ih _ _ (mirror_step cs hm (hd cs (List.mem_cons_self cs t)))
      (fun x hx => hd x (List.mem_cons_of_mem cs hx))

/-- Witness for C1: starting from an empty mirrored pair, adding a
document record and then removing it keeps the mirror exact at each
boundary. -/
theorem c1_mirror_equivalence_witness :
    Mirror [] [] ∧
    (∀ cs ∈ [ChangeSet.mk [TLRec.mk "a" RecScope.document 0] [] [],
             ChangeSet.mk [] [] [TLRec.mk "a" RecScope.document 0]], DocOnly cs) ∧
    Mirror
      (processEdits ([], [])
        [ChangeSet.mk [TLRec.mk "a" RecScope.document 0] [] [],
         ChangeSet.mk [] [] [TLRec.mk "a" RecScope.document 0]]).2
      (processEdits ([], [])
        [ChangeSet.mk [TLRec.mk "a" RecScope.document 0] [] [],
         ChangeSet.mk [] [] [TLRec.mk "a" RecScope.document 0]]).1 :=
  ⟨fun _ => rfl, by decide,
    c1_mirror_equivalence _ _ _ (fun _ => rfl) (by decide)⟩

/-! ### Sync Bridge: Replicated Log to Local Store (`handleChange`) -/

/-- One entry of the coalesced change map delivered by the `YKeyValue`
change event. The handler only inspects the `action` tag; the attached
old/new values are carried for faithfulness but never read. -/
inductive YChange where
  | add (newValue : TLRec)
  | update (oldValue newValue : TLRec)
  | delete (oldValue : TLRec)
deriving DecidableEq, Repr

/-- The store mutations staged by one run of `handleChange`:
how many `store.mergeRemoteChanges` calls were made, the ids passed to
`store.remove`, and the values passed to `store.put` in order. A `put`
entry is `none` when `yStore.get(id)` returned nothing: the source reads
`yStore.get(id)!`, whose non-null assertion is erased at runtime, so the
absent value itself is pushed. -/
structure HandleChangeOut where
  mergeCalls : Nat
  remove : List String
  put : List (Option TLRec)
deriving DecidableEq, Repr

/-- The `handleChange` callback: returns immediately when the transaction
is flagged local; otherwise classifies each changed key as add/update
(fetch the current log value, stage it for put) or delete (stage the id
for removal) and requests one atomic merge of the whole batch. -/
def handleChange (changes : List (String × YChange)) (isLocal : Bool)
    (log : KV) : HandleChangeOut :=
  if isLocal then ⟨0, [], []⟩
  else
    ⟨1,
     changes.filterMap (fun p =>
       match p.2 with
       | YChange.delete _ => some p.1
       | _ => none),
     changes.filterMap (fun p =>
       match p.2 with
       | YChange.delete _ => none
       | _ => some (kvGet log p.1))⟩

/-- Applying a staged batch to the Local Store inside
`store.mergeRemoteChanges`: removals first, then puts. A staged `put` of
an absent value makes `store.put` throw, so the merge fails (`none`)
instead of producing a store. -/
def applyHandleChange (out : HandleChangeOut) (store : KV) : Option KV :=
  if out.mergeCalls = 0 then some store
  else
    let s1 := out.remove.foldl (fun m k => kvDelete k m) store
    if out.put.all Option.isSome then
      some ((out.put.filterMap id).foldl (fun m r => kvSet r.id r m) s1)
    else none

/-- C2. A change notification flagged as locally originated is discarded:
the handler stages nothing, performs zero merges, and leaves the Local
Store untouched; and each local edit opens exactly one replicated-log
transaction. -/
theorem c2_echo_suppression (changes : List (String × YChange)) (log store : KV)
    (cs : ChangeSet) :
    handleChange changes true log = ⟨0, [], []⟩ ∧
    applyHandleChange (handleChange changes true log) store = some store ∧
    (syncStoreChangesToYjsDoc cs log).2 = 1 :=
  ⟨rfl, rfl, rfl⟩

/-- C3. Counterexample: a remote notification whose add-classified key
`"a"` has no value in the log at fetch time. The claim says the record is
skipped and the rest of the batch (here the add of `"b"`) still applies;
the handler instead stages the absent value (`yStore.get(id)!` erases to
a plain fetch) and the merge fails rather than applying the rest. -/
theorem c3_missing_value_counterexample :
    applyHandleChange
      (handleChange
        [("a", YChange.add (TLRec.mk "a" RecScope.document 0)),
         ("b", YChange.add (TLRec.mk "b" RecScope.document 1))]
        false
        [("b", TLRec.mk "b" RecScope.document 1)])
      [] = none ∧
    (handleChange
        [("a", YChange.add (TLRec.mk "a" RecScope.document 0)),
         ("b", YChange.add (TLRec.mk "b" RecScope.document 1))]
        false
        [("b", TLRec.mk "b" RecScope.document 1)]).put ≠
      [some (TLRec.mk "b" RecScope.document 1)] := by
  decide

/-- Whether a change-map entry carries the delete action. -/
def isDeleteAction : YChange → Bool
  | YChange.delete _ => true
  | _ => false

/-- C3 amended: the handler never skips an add/update key; it stages
whatever the log fetch returns, so the batch merge into the Local Store
succeeds exactly when every add/update key has a value present at fetch
time (an absent value makes the staged put fail instead of being
dropped). This theorem proves the positive half: when every add/update
key is present, the whole batch applies. -/
theorem c3_missing_value_amended (changes : List (String × YChange))
    (log store : KV)
    (h : ∀ p ∈ changes,
      (kvGet log p.1).isSome = true ∨ isDeleteAction p.2 = true) :
    (applyHandleChange (handleChange changes false log) store).isSome = true := by
  unfold handleChange applyHandleChange
  simp only [if_neg (by simp : ¬(false = true))]
  have hall : (changes.filterMap (fun p =>
      match p.2 with
      | YChange.delete _ => none
      | _ => some (kvGet log p.1))).all Option.isSome = true := by
    rw [List.all_eq_true]
    intro x hx
    rw [List.mem_filterMap] at hx
    obtain ⟨p, hp, hfp⟩ := hx
    rcases h p hp with hs | hr
    · cases hpc : p.2 <;> rw [hpc] at hfp <;> simp at hfp <;> simp_all
    · cases hpc : p.2 <;> rw [hpc] at hfp <;> simp [isDeleteAction, hpc] at hfp hr <;>
        simp_all
  simp only [hall]
  simp

/-- Witness for C3 amended: a batch with one delete and one add whose key
is present merges successfully. -/
theorem c3_missing_value_amended_witness :
    (∀ p ∈ [("a", YChange.delete (TLRec.mk "a" RecScope.document 0)),
            ("b", YChange.add (TLRec.mk "b" RecScope.document 1))],
      (kvGet [("b", TLRec.mk "b" RecScope.document 1)] p.1).isSome = true ∨
        isDeleteAction p.2 = true) ∧
    (applyHandleChange
      (handleChange
        [("a", YChange.delete (TLRec.mk "a" RecScope.document 0)),
         ("b", YChange.add (TLRec.mk "b" RecScope.document 1))]
        false
        [("b", TLRec.mk "b" RecScope.document 1)])
      []).isSome = true :=
  ⟨by decide, c3_missing_value_amended _ _ _ (by decide)⟩

/-! ### Initial Reconciliation (the tail of `handleSync`) -/

/-- Outcome of the initial-reconciliation block of `handleSync`: the
Replicated Log contents afterwards, the shared Schema Marker slot
(`meta.get('schema')`) afterwards, the snapshot passed to
`store.loadSnapshot` (if any), and the number of `yDoc.transact`
transactions opened. -/
structure ReconcileResult where
  log : KV
  marker : Option String
  loaded : Option KV
  txCount : Nat
deriving DecidableEq, Repr

/-- The initial-reconciliation block of `handleSync`. If the log is
non-empty it is authoritative: read the shared marker (throw when
absent), migrate the log's records under the shared marker via
`store.schema.migrateStoreSnapshot`, and on error return without touching
anything; on success, in one transaction delete every log record absent
from the migrated snapshot, write every snapshot record under its id, set
the marker to the local serialized schema, and then load the snapshot
into the store. If the log is empty, seed it from the store's records and
the local schema. `migrate` abstracts the external migration function. -/
def initialReconcile (log : KV) (marker : Option String) (ourSchema : String)
    (storeRecords : List TLRec)
    (migrate : String → KV → Except String KV) : ReconcileResult :=
  if log = [] then
    ⟨storeRecords.foldl (fun m r => kvSet r.id r m) log, some ourSchema, none, 1⟩
  else
    match marker with
    | none => ⟨log, marker, none, 0⟩
    | some theirSchema =>
      let records := log.map Prod.snd
      match migrate theirSchema (records.map (fun r => (r.id, r))) with
      | Except.error _ => ⟨log, some theirSchema, none, 0⟩
      | Except.ok snapshot =>
        let l1 := records.foldl
          (fun m r => if (kvGet snapshot r.id).isSome then m else kvDelete r.id m) log
        let l2 := snapshot.foldl (fun m p => kvSet p.2.id p.2 m) l1
        ⟨l2, some ourSchema, some snapshot, 1⟩

theorem kvGet_eq_none_of_not_mem_keys {m : KV} {q : String}
    (h : q ∉ m.map Prod.fst) : kvGet m q = none := by
  induction m with
  | nil => rfl
  | cons p t ih =>
    simp only [List.map_cons, List.mem_cons] at h
    push_neg at h
    simp [kvGet, h.1, ih h.2]

theorem kvGet_setAll (m : KV) (hnd : (m.map Prod.fst).Nodup)
    (hk : ∀ p ∈ m, (p.2 : TLRec).id = p.1) :
    ∀ (l : KV) (q : String),
    kvGet (m.foldl (fun acc p => kvSet p.2.id p.2 acc) l) q =
      match kvGet m q with
      | some v => some v
      | none => kvGet l q := by
  induction m with
  | nil => intro l q; simp [kvGet]
  | cons p t ih =>
    intro l q
    obtain ⟨k0, v0⟩ := p
    have hid : v0.id = k0 := hk (k0, v0) (List.mem_cons_self _ _)
    simp only [List.map_cons, List.nodup_cons] at hnd
    simp only [List.foldl_cons]
    rw [hid, ih hnd.2 (fun x hx => hk x (List.mem_cons_of_mem _ hx))]
    by_cases hq : q = k0
    · subst hq
      rw [kvGet_eq_none_of_not_mem_keys hnd.1]
      simp [kvGet, kvGet_kvSet]
    · simp [kvGet, hq]
      cases kvGet t q <;> simp [kvGet_kvSet, hq]

theorem kvGet_delFold_none (snapshot : KV) (records : List TLRec) :
    ∀ (l : KV) (q : String), kvGet l q = none →
    kvGet (records.foldl
      (fun m r => if (kvGet snapshot r.id).isSome then m else kvDelete r.id m) l) q
      = none := by
  induction records with
  | nil => intro l q h; exact h
  | cons r t ih =>
    intro l q h
    simp only [List.foldl_cons]
    by_cases hs : (kvGet snapshot r.id).isSome
    · rw [if_pos hs]; exact ih l q h
    · rw [if_neg hs]
      apply ih
      rw [kvGet_kvDelete]
      by_cases hq : q = r.id <;> simp [hq, h]

theorem kvGet_delFold_deleted (snapshot : KV) {records : List TLRec} {q : String}
    {r : TLRec} (hr : r ∈ records) (hid : r.id = q)
    (hs : kvGet snapshot q = none) :
    ∀ l : KV,
    kvGet (records.foldl
      (fun m r => if (kvGet snapshot r.id).isSome then m else kvDelete r.id m) l) q
      = none := by
  induction records with
  | nil => cases hr
  | cons r0 t ih =>
    intro l
    simp only [List.foldl_cons]
    rcases List.mem_cons.1 hr with hr0 | hrt
    · subst hr0
      rw [hid, hs]
      simp only [Option.isSome_none, Bool.false_eq_true, if_false]
      apply kvGet_delFold_none
      rw [kvGet_kvDelete]
      simp
    · exact ih hrt _

/-- C4. Non-empty log, present marker, successful migration: in one
transaction the log is reduced exactly to the migrated snapshot (records
absent from it deleted, every snapshot record written under its id) and
the marker is set to the local serialized schema, after which the store
is replaced by the snapshot. The r1/r1-migrated scenario is the witness
below. Hypotheses: every log and snapshot entry is keyed by its record's
id, and snapshot keys are unique (it comes from an object keyed by id). -/
theorem c4_migration_forward (log : KV) (theirSchema ourSchema : String)
    (storeRecords : List TLRec) (migrate : String → KV → Except String KV)
    (snapshot : KV)
    (hne : log ≠ [])
    (hmig : migrate theirSchema ((log.map Prod.snd).map (fun r => (r.id, r)))
      = Except.ok snapshot)
    (hkeys : ∀ p ∈ log, (p.2 : TLRec).id = p.1)
    (hskeys : ∀ p ∈ snapshot, (p.2 : TLRec).id = p.1)
    (hnodup : (snapshot.map Prod.fst).Nodup) :
    (∀ q, kvGet (initialReconcile log (some theirSchema) ourSchema
        storeRecords migrate).log q = kvGet snapshot q) ∧
    (initialReconcile log (some theirSchema) ourSchema storeRecords migrate).marker
      = some ourSchema ∧
    (initialReconcile log (some theirSchema) ourSchema storeRecords migrate).loaded
      = some snapshot ∧
    (initialReconcile log (some theirSchema) ourSchema storeRecords migrate).txCount
      = 1 := by
  unfold initialReconcile
  rw [if_neg hne]
  simp only [hmig]
  refine ⟨?_, trivial, trivial, trivial⟩
  intro q
  rw [kvGet_setAll snapshot hnodup hskeys]
  cases hsq : kvGet snapshot q with
  | some v => rfl
  | none =>
    simp only
    cases hlq : kvGet log q with
    | none => exact kvGet_delFold_none snapshot _ log q hlq
    | some v =>
      have hmem : (q, v) ∈ log := kvGet_mem hlq
      have hidv : v.id = q := hkeys (q, v) hmem
      exact kvGet_delFold_deleted snapshot
        (List.mem_map_of_mem Prod.snd hmem) hidv hsq log

/-- Concrete record `r1` for the migration-forward scenario. -/
def r1rec : TLRec := TLRec.mk "r1" RecScope.document 0

/-- The migrated form of `r1`. -/
def r1migrated : TLRec := TLRec.mk "r1" RecScope.document 1

/-- A concrete migration function: under marker `"Sold"` it turns the
snapshot into `{r1migrated}`; under any other marker it fails. -/
def sampleMigrate : String → KV → Except String KV :=
  fun th _ =>
    if th = "Sold" then Except.ok [("r1", r1migrated)] else Except.error "stale"

/-- Witness for C4: the migration-forward scenario. The log holds `r1`
under marker `Sold`; the local schema is `Snew`; after reconciliation the
log holds exactly the migrated `r1`, the marker equals `Snew`, and the
store is loaded with the migrated snapshot in one transaction. -/
theorem c4_migration_forward_witness :
    (([("r1", r1rec)] : KV) ≠ []) ∧
    sampleMigrate "Sold" (((([("r1", r1rec)] : KV)).map Prod.snd).map
      (fun r => (r.id, r))) = Except.ok [("r1", r1migrated)] ∧
    (∀ q, kvGet (initialReconcile [("r1", r1rec)] (some "Sold") "Snew" []
        sampleMigrate).log q = kvGet [("r1", r1migrated)] q) ∧
    (initialReconcile [("r1", r1rec)] (some "Sold") "Snew" []
        sampleMigrate).marker = some "Snew" ∧
    (initialReconcile [("r1", r1rec)] (some "Sold") "Snew" []
        sampleMigrate).loaded = some [("r1", r1migrated)] ∧
    (initialReconcile [("r1", r1rec)] (some "Sold") "Snew" []
        sampleMigrate).txCount = 1 :=
  ⟨by decide, by rfl,
    c4_migration_forward [("r1", r1rec)] "Sold" "Snew" [] sampleMigrate
      [("r1", r1migrated)] (by decide) (by rfl) (by decide) (by decide) (by decide)⟩

/-- C5. Non-empty log, present marker, failing migration: reconciliation
returns without loading a snapshot into the store, without writing to the
log, and without touching the marker — everything is exactly as before,
and no transaction is opened. -/
theorem c5_migration_error_aborts (log : KV) (theirSchema ourSchema : String)
    (storeRecords : List TLRec) (migrate : String → KV → Except String KV)
    (e : String)
    (hne : log ≠ [])
    (hmig : migrate theirSchema ((log.map Prod.snd).map (fun r => (r.id, r)))
      = Except.error e) :
    initialReconcile log (some theirSchema) ourSchema storeRecords migrate
      = ⟨log, some theirSchema, none, 0⟩ := by
  unfold initialReconcile
  rw [if_neg hne]
  simp only [hmig]

/-- Witness for C5: a log holding `r1` under a marker the local schema
cannot migrate from; reconciliation leaves log, marker and store
untouched. -/
theorem c5_migration_error_aborts_witness :
    (([("r1", r1rec)] : KV) ≠ []) ∧
    sampleMigrate "Sother" (((([("r1", r1rec)] : KV)).map Prod.snd).map
      (fun r => (r.id, r))) = Except.error "stale" ∧
    initialReconcile [("r1", r1rec)] (some "Sother") "Snew" [] sampleMigrate
      = ⟨[("r1", r1rec)], some "Sother", none, 0⟩ :=
  ⟨by decide, by rfl,
    c5_migration_error_aborts [("r1", r1rec)] "Sother" "Snew" [] sampleMigrate
      "stale" (by decide) (by rfl)⟩

/-! ### Connection Lifecycle Controller (`handleStatusChange` wiring) -/

/-- The exposed SyncStatus value: `loading`, or `synced-remote` with a
connection status. -/
inductive SyncStatusV where
  | loading
  | syncedRemote (online : Bool)
deriving DecidableEq, Repr

/-- Session state of the lifecycle controller: the published status, the
`hasConnectedBefore` flag, whether `handleSync` is currently registered
on the room's `synced` event, and how many times the `handleSync` body
has run. -/
structure LCState where
  status : SyncStatusV
  hasConnectedBefore : Bool
  syncedHandlerOn : Bool
  runs : Nat
deriving DecidableEq, Repr

/-- A transport event: a `status` callback with `connected` or
`disconnected`, or a `synced` callback. `synced` carries whether the
`handleSync` body reaches its final `setStoreWithStatus` (true: empty-log
seeding or successful migration; false: migration error return or
missing-marker throw). -/
inductive TransportEvent where
  | connected
  | disconnected
  | synced (recOk : Bool)
deriving DecidableEq, Repr

/-- Initial session state: the effect publishes `loading` and registers
`handleStatusChange`; `handleSync` is not yet registered. -/
def lcInit : LCState := ⟨SyncStatusV.loading, false, false, 0⟩

/-- One transport event, as handled by `handleStatusChange` and the
`synced` registration it manages. `disconnected`: publish
`synced-remote/offline` and return. `connected`: first unregister
`handleSync` from `synced`, then, only on the first `connected` of the
session, set `hasConnectedBefore` and register `handleSync`. `synced`:
run the registered `handleSync` body, which publishes
`synced-remote/online` when its reconciliation succeeds. -/
def lcStep (s : LCState) (e : TransportEvent) : LCState :=
  match e with
  | TransportEvent.disconnected =>
    { s with status := SyncStatusV.syncedRemote false }
  | TransportEvent.connected =>
    let s1 := { s with syncedHandlerOn := false }
    if s1.hasConnectedBefore then s1
    else { s1 with hasConnectedBefore := true, syncedHandlerOn := true }
  | TransportEvent.synced recOk =>
    if s.syncedHandlerOn then
      { s with
        runs := s.runs + 1,
        status := if recOk then SyncStatusV.syncedRemote true else s.status }
    else s

/-- The session state after a sequence of transport events. -/
def lcRun (evs : List TransportEvent) : LCState := evs.foldl lcStep lcInit

/-- C6. Counterexample: a `disconnected` event arriving before the first
`synced` event moves the status to `synced-remote/offline` although no
reconciliation has run, so the status does not remain `loading` until the
first full initial reconciliation completes. -/
theorem c6_loading_counterexample :
    (lcRun [TransportEvent.disconnected]).status
      = SyncStatusV.syncedRemote false ∧
    (lcRun [TransportEvent.disconnected]).status ≠ SyncStatusV.loading ∧
    (lcRun [TransportEvent.disconnected]).runs = 0 := by
  decide

/-- C6 amended: the status remains `loading` until the first
reconciliation completes or a `disconnected` event arrives (which
publishes `synced-remote/offline` even before the first sync), and once
the status has left `loading` it never becomes `loading` again: no step
maps a non-`loading` status back to `loading`, and the only ways out of
`loading` are a `disconnected` event or a `synced` event whose
reconciliation succeeds while `handleSync` is registered. -/
theorem c6_loading_amended (s : LCState) (e : TransportEvent) :
    (s.status ≠ SyncStatusV.loading → (lcStep s e).status ≠ SyncStatusV.loading) ∧
    (s.status = SyncStatusV.loading → (lcStep s e).status ≠ SyncStatusV.loading →
      e = TransportEvent.disconnected ∨
        (e = TransportEvent.synced true ∧ s.syncedHandlerOn = true ∧
          (lcStep s e).runs = s.runs + 1)) := by
  cases e with
  | disconnected => exact ⟨fun _ => by simp [lcStep], fun _ _ => Or.inl rfl⟩
  | connected =>
    constructor
    · intro h
      by_cases hc : s.hasConnectedBefore <;> simp [lcStep, hc] <;> exact h
    · intro hl hn
      exfalso
      apply hn
      by_cases hc : s.hasConnectedBefore <;> simp [lcStep, hc] <;> exact hl
  | synced recOk =>
    constructor
    · intro h
      by_cases hh : s.syncedHandlerOn <;> cases recOk <;> simp [lcStep, hh] <;> exact h
    · intro hl hn
      by_cases hh : s.syncedHandlerOn
      · cases recOk
        · exfalso; apply hn; simp [lcStep, hh]; exact hl
        · exact Or.inr ⟨rfl, by simp [hh], by simp [lcStep, hh]⟩
      · exfalso; apply hn; simp [lcStep, hh]; exact hl

/-- Witness for C6 amended: at the state reached by one `connected`, a
successful `synced` event moves the status out of `loading`, and the
amended characterization identifies it as a successful reconciliation
step. -/
theorem c6_loading_amended_witness :
    TransportEvent.synced true = TransportEvent.disconnected ∨
      (TransportEvent.synced true = TransportEvent.synced true ∧
        (lcRun [TransportEvent.connected]).syncedHandlerOn = true ∧
        (lcStep (lcRun [TransportEvent.connected])
          (TransportEvent.synced true)).runs
          = (lcRun [TransportEvent.connected]).runs + 1) :=
  (c6_loading_amended (lcRun [TransportEvent.connected])
    (TransportEvent.synced true)).2 (by decide) (by decide)

/-- Transport-trace validity, threading whether a `connected` event has
occurred since the last `synced` event: the transport fires `synced` once
per successful resync, and a resync requires a (re)connection, so every
`synced` event is preceded by a `connected` event with no other `synced`
in between. -/
def validFrom : Bool → List TransportEvent → Bool
  | _, [] => true
  | _, TransportEvent.connected :: t => validFrom true t
  | b, TransportEvent.disconnected :: t => validFrom b t
  | b, TransportEvent.synced _ :: t => b && validFrom false t

/-- A valid transport trace, starting before any connection. -/
def validTrace (evs : List TransportEvent) : Bool := validFrom false evs

/-- C7. Counterexample: the valid trace connected, disconnected,
connected, synced — a reconnect completing its resync before the first
`handleSync` ran. The second `connected` unregisters `handleSync` and,
because `hasConnectedBefore` is already set, never re-registers it, so
the `handleSync` body runs zero times instead of exactly once. -/
theorem c7_exactly_once_counterexample :
    validTrace [TransportEvent.connected, TransportEvent.disconnected,
      TransportEvent.connected, TransportEvent.synced true] = true ∧
    (lcRun [TransportEvent.connected, TransportEvent.disconnected,
      TransportEvent.connected, TransportEvent.synced true]).runs = 0 ∧
    (lcRun [TransportEvent.connected, TransportEvent.disconnected,
      TransportEvent.connected, TransportEvent.synced true]).syncedHandlerOn
      = false := by
  decide

theorem lc_runs_le_one_aux :
    ∀ (evs : List TransportEvent) (b : Bool) (s : LCState),
    validFrom b evs = true →
    s.runs ≤ 1 →
    (s.hasConnectedBefore = false → s.runs = 0 ∧ s.syncedHandlerOn = false) →
    (s.runs = 1 → s.syncedHandlerOn = true → b = false) →
    (evs.foldl lcStep s).runs ≤ 1 := by
  intro evs
  induction evs with
  | nil =>
    intro b s _ h1 _ _
    exact h1
  | cons e t ih =>
    intro b s hv h1 h2 h3
    simp only [List.foldl_cons]
    cases e with
    | connected =>
      simp only [validFrom] at hv
      by_cases hc : s.hasConnectedBefore = true
      · have hstep : lcStep s TransportEvent.connected
            = { s with syncedHandlerOn := false } := by
          simp [lcStep, hc]
        rw [hstep]
        refine ih true _ hv h1 ?_ ?_
        · intro hcb
          rw [show ({ s with syncedHandlerOn := false } : LCState).hasConnectedBefore
            = s.hasConnectedBefore from rfl, hc] at hcb
          cases hcb
        · intro _ hso
          cases hso
      · have hcf : s.hasConnectedBefore = false := by
          revert hc; cases s.hasConnectedBefore <;> simp
        have h20 := h2 hcf
        have hstep : lcStep s TransportEvent.connected
            = { s with hasConnectedBefore := true, syncedHandlerOn := true } := by
          simp [lcStep, hcf]
        rw [hstep]
        refine ih true _ hv h1 ?_ ?_
        · intro hcb
          cases hcb
        · intro hr _
          exfalso
          have : s.runs = 1 := hr
          omega
    | disconnected =>
      simp only [validFrom] at hv
      have hstep : lcStep s TransportEvent.disconnected
          = { s with status := SyncStatusV.syncedRemote false } := rfl
      rw [hstep]
      exact ih b _ hv h1 h2 h3
    | synced recOk =>
      simp only [validFrom, Bool.and_eq_true] at hv
      obtain ⟨hb, hv⟩ := hv
      by_cases hh : s.syncedHandlerOn = true
      · have hr0 : s.runs = 0 := by
          by_contra hne
          have h1e : s.runs = 1 := by omega
          have hbf := h3 h1e hh
          rw [hb] at hbf
          cases hbf
        have hstep : lcStep s (TransportEvent.synced recOk)
            = { s with
                runs := s.runs + 1
                status := (if recOk then SyncStatusV.syncedRemote true
                  else s.status) } := by
          simp [lcStep, hh]
        rw [hstep]
        refine ih false _ hv ?_ ?_ ?_
        · show s.runs + 1 ≤ 1
          omega
        · intro hcb
          exfalso
          have hof := (h2 hcb).2
          rw [hh] at hof
          cases hof
        · intro _ _
          rfl
      · have hstep : lcStep s (TransportEvent.synced recOk) = s := by
          simp [lcStep, hh]
        rw [hstep]
        refine ih false _ hv h1 h2 ?_
        intro _ hso
        exact absurd hso hh

/-- C7 amended: over every valid transport trace (each `synced` preceded
by a `connected` since the previous `synced`), the `handleSync` body —
Schema Gate, Initial Reconciliation and Bridge/Presence activation — runs
at most once per session, not exactly once: a `connected` event after the
first permanently unregisters it, so a reconnect arriving before the
first resync leaves it never run. -/
theorem c7_at_most_once (evs : List TransportEvent)
    (hv : validTrace evs = true) :
    (lcRun evs).runs ≤ 1 :=
  lc_runs_le_one_aux evs false lcInit hv (by decide)
    (fun _ => by decide) (fun h => by cases h)

/-- Witness for C7 amended: the canonical first connection trace is valid
and runs the body at most once (in fact exactly once). -/
theorem c7_at_most_once_witness :
    validTrace [TransportEvent.connected, TransportEvent.synced true] = true ∧
    (lcRun [TransportEvent.connected, TransportEvent.synced true]).runs ≤ 1 :=
  ⟨by decide, c7_at_most_once _ (by decide)⟩

/-! ### Live schema observation (`handleMetaUpdate`) -/

/-- Effects the `handleMetaUpdate` observer can perform. The last two are
never emitted by the source; they name the actions the spec expects
(tearing down the websocket connection, detaching the local-edit
listener) so their absence can be stated. -/
inductive MetaEffect where
  | throwNoSchema
  | alertStale
  | destroyDoc
  | destroyRoom
  | unsubscribeStoreListener
deriving DecidableEq, Repr

/-- The `meta` observer `handleMetaUpdate`: reads the shared marker
(throws when absent), computes the local migrations newer than it via
`store.schema.getMigrationsSince`, and when that fails or yields any
pending migration, alerts the user and destroys the Y document. It
performs no operation on the websocket connection (`room`) and detaches
no listener. -/
def handleMetaUpdate (marker : Option String)
    (getMigrationsSince : String → Except Unit (List String)) : List MetaEffect :=
  match marker with
  | none => [MetaEffect.throwNoSchema]
  | some theirSchema =>
    match getMigrationsSince theirSchema with
    | Except.error _ => [MetaEffect.alertStale, MetaEffect.destroyDoc]
    | Except.ok migs =>
      if migs.length > 0 then [MetaEffect.alertStale, MetaEffect.destroyDoc]
      else []

/-- C8. Counterexample: a marker change with one pending migration. The
observer alerts and destroys the Y document, but the replicated
(websocket) connection is not torn down and the local-edit listener stays
attached, contradicting the claim that all further synchronization is
stopped by tearing the connection down. -/
theorem c8_teardown_counterexample :
    MetaEffect.destroyRoom ∉
      handleMetaUpdate (some "Sold") (fun _ => Except.ok ["m1"]) ∧
    MetaEffect.unsubscribeStoreListener ∉
      handleMetaUpdate (some "Sold") (fun _ => Except.ok ["m1"]) ∧
    MetaEffect.destroyDoc ∈
      handleMetaUpdate (some "Sold") (fun _ => Except.ok ["m1"]) := by
  decide

/-- C8 amended: whenever the observed marker yields a failing or
non-empty pending-migration computation, the observer raises the
stale-client alert and destroys the shared Y document — and does nothing
else: the websocket connection object is untouched and the store listener
stays registered, so any suppression of later log writes rests on the
destroyed document, not on a connection teardown by this handler. -/
theorem c8_stale_client_amended (theirSchema : String)
    (gms : String → Except Unit (List String))
    (h : ∀ l, gms theirSchema = Except.ok l → 0 < l.length) :
    handleMetaUpdate (some theirSchema) gms
      = [MetaEffect.alertStale, MetaEffect.destroyDoc] ∧
    MetaEffect.destroyRoom ∉ handleMetaUpdate (some theirSchema) gms ∧
    MetaEffect.unsubscribeStoreListener ∉
      handleMetaUpdate (some theirSchema) gms := by
  have hres : handleMetaUpdate (some theirSchema) gms
      = [MetaEffect.alertStale, MetaEffect.destroyDoc] := by
    cases hg : gms theirSchema with
    | error e => simp [handleMetaUpdate, hg]
    | ok l =>
      have hl := h l hg
      simp [handleMetaUpdate, hg, hl]
  refine ⟨hres, ?_, ?_⟩ <;> rw [hres] <;> decide

/-- Witness for C8 amended: a failing migration computation produces
exactly the alert and the document destruction. -/
theorem c8_stale_client_amended_witness :
    handleMetaUpdate (some "Sold") (fun _ => Except.error ())
      = [MetaEffect.alertStale, MetaEffect.destroyDoc] ∧
    MetaEffect.destroyRoom ∉
      handleMetaUpdate (some "Sold") (fun _ => Except.error ()) ∧
    MetaEffect.unsubscribeStoreListener ∉
      handleMetaUpdate (some "Sold") (fun _ => Except.error ()) :=
  c8_stale_client_amended "Sold" (fun _ => Except.error ())
    (fun _ hl => Except.noConfusion hl)

/-! ### Presence Channel (`handleUpdate`) -/

/-- One participant's awareness state as consumed by the handler: it may
lack the `presence` field. An absent participant is modelled by `awGet`
returning `none`. -/
structure AwarenessState where
  presence : Option TLRec
deriving DecidableEq, Repr

/-- `room.awareness.getStates()` lookup by numeric client id. -/
def awGet : List (Nat × AwarenessState) → Nat → Option AwarenessState
  | [], _ => none
  | (c, st) :: t, q => if q = c then some st else awGet t q

/-- `InstancePresenceRecordType.createId`: derives the Presence Record id
from a participant id string. -/
def presenceRecordId (clientId : String) : String :=
  "instance_presence:" ++ clientId

/-- An awareness update notification: added/updated/removed participant
ids. -/
structure AwarenessUpdate where
  added : List Nat
  updated : List Nat
  removed : List Nat
deriving DecidableEq, Repr

/-- The store mutations staged by one run of the awareness `handleUpdate`
callback. -/
structure HandleUpdateOut where
  mergeCalls : Nat
  remove : List String
  put : List TLRec
deriving DecidableEq, Repr

/-- The body of the added/updated loops: fetch the participant's state
and stage its published presence record unless it is absent, lacks a
`presence` field, or is this participant's own record. -/
def pickPresence (states : List (Nat × AwarenessState)) (presenceId : String)
    (clientId : Nat) : Option TLRec :=
  match awGet states clientId with
  | some st =>
    match st.presence with
    | some p => if p.id = presenceId then none else some p
    | none => none
  | none => none

/-- The awareness `handleUpdate` callback: stages puts for added then
updated participants via `pickPresence`, stages removals of the Presence
Record ids derived from removed participant ids, and requests one atomic
`store.mergeRemoteChanges` for the whole batch. -/
def handleUpdate (u : AwarenessUpdate) (states : List (Nat × AwarenessState))
    (presenceId : String) : HandleUpdateOut :=
  ⟨1,
   u.removed.map (fun c => presenceRecordId (toString c)),
   u.added.filterMap (pickPresence states presenceId)
     ++ u.updated.filterMap (pickPresence states presenceId)⟩

theorem pickPresence_eq_some (states : List (Nat × AwarenessState))
    (presenceId : String) (c : Nat) (p : TLRec) :
    pickPresence states presenceId c = some p ↔
      ∃ st, awGet states c = some st ∧ st.presence = some p ∧
        p.id ≠ presenceId := by
  unfold pickPresence
  cases hst : awGet states c with
  | none => simp
  | some st =>
    cases hp : st.presence with
    | none => simp [hp]
    | some p0 =>
      simp only [hp]
      by_cases hid : p0.id = presenceId
      · rw [if_pos hid]
        constructor
        · rintro h
          cases h
        · rintro ⟨st1, hst1, hp1, hid1⟩
          cases hst1
          rw [hp] at hp1
          cases hp1
          exact absurd hid hid1
      · rw [if_neg hid]
        constructor
        · rintro h
          cases h
          exact ⟨st, rfl, hp, hid⟩
        · rintro ⟨st1, hst1, hp1, _⟩
          cases hst1
          rw [hp] at hp1
          cases hp1
          rfl

/-- C9. For every awareness update, the handler stages for put exactly
the published presence records of added/updated participants whose
presence id differs from this participant's own (the own record is never
staged), stages for removal exactly the Presence Record ids derived from
the removed participant ids, and requests a single atomic
merge-remote-changes for the whole batch. -/
theorem c9_presence_batch (u : AwarenessUpdate)
    (states : List (Nat × AwarenessState)) (presenceId : String) :
    (handleUpdate u states presenceId).remove
      = u.removed.map (fun c => presenceRecordId (toString c)) ∧
    (∀ p ∈ (handleUpdate u states presenceId).put, p.id ≠ presenceId) ∧
    (∀ p : TLRec, p ∈ (handleUpdate u states presenceId).put ↔
      ∃ c ∈ u.added ++ u.updated, ∃ st, awGet states c = some st ∧
        st.presence = some p ∧ p.id ≠ presenceId) ∧
    (handleUpdate u states presenceId).mergeCalls = 1 := by
  have hchar : ∀ p : TLRec, p ∈ (handleUpdate u states presenceId).put ↔
      ∃ c ∈ u.added ++ u.updated, ∃ st, awGet states c = some st ∧
        st.presence = some p ∧ p.id ≠ presenceId := by
    intro p
    unfold handleUpdate
    simp only [List.mem_append, List.mem_filterMap, pickPresence_eq_some]
    constructor
    · rintro (⟨c, hc, hex⟩ | ⟨c, hc, hex⟩)
      · exact ⟨c, Or.inl hc, hex⟩
      · exact ⟨c, Or.inr hc, hex⟩
    · rintro ⟨c, hc | hc, hex⟩
      · exact Or.inl ⟨c, hc, hex⟩
      · exact Or.inr ⟨c, hc, hex⟩
  refine ⟨rfl, ?_, hchar, rfl⟩
  intro p hp
  obtain ⟨c, _, st, _, _, hid⟩ := (hchar p).1 hp
  exact hid

/-- C10. A participant listed as added or updated whose awareness state
is absent or lacks a `presence` field contributes no put: the handler's
staged output on a batch containing such a participant equals its output
with that participant dropped, in both the added and the updated list,
and the rest of the batch is processed normally. -/
theorem c10_malformed_presence_skipped (ad1 ad2 ud1 ud2 : List Nat)
    (rem : List Nat) (c : Nat) (states : List (Nat × AwarenessState))
    (presenceId : String)
    (h : awGet states c = none ∨ awGet states c = some ⟨none⟩) :
    handleUpdate ⟨ad1 ++ c :: ad2, ud1 ++ ud2, rem⟩ states presenceId
      = handleUpdate ⟨ad1 ++ ad2, ud1 ++ ud2, rem⟩ states presenceId ∧
    handleUpdate ⟨ad1 ++ ad2, ud1 ++ c :: ud2, rem⟩ states presenceId
      = handleUpdate ⟨ad1 ++ ad2, ud1 ++ ud2, rem⟩ states presenceId := by
  have hpick : pickPresence states presenceId c = none := by
    rcases h with h | h <;> simp [pickPresence, h]
  refine ⟨?_, ?_⟩ <;>
    simp [handleUpdate, List.filterMap_append, List.filterMap_cons, hpick]

/-- Witness for C10: a state table where participant 7 has no `presence`
field and participant 8 is absent; both are skipped while participant 5's
record is still staged. -/
theorem c10_malformed_presence_skipped_witness :
    (awGet [(7, AwarenessState.mk none),
            (5, AwarenessState.mk (some (TLRec.mk "p5" RecScope.presence 0)))] 7
        = none ∨
      awGet [(7, AwarenessState.mk none),
            (5, AwarenessState.mk (some (TLRec.mk "p5" RecScope.presence 0)))] 7
        = some (AwarenessState.mk none)) ∧
    handleUpdate ⟨[5] ++ 7 :: [], [] ++ [], []⟩
        [(7, AwarenessState.mk none),
         (5, AwarenessState.mk (some (TLRec.mk "p5" RecScope.presence 0)))]
        "instance_presence:9"
      = handleUpdate ⟨[5] ++ [], [] ++ [], []⟩
        [(7, AwarenessState.mk none),
         (5, AwarenessState.mk (some (TLRec.mk "p5" RecScope.presence 0)))]
        "instance_presence:9" :=
  ⟨Or.inr (by decide),
    (c10_malformed_presence_skipped [5] [] [] [] [] 7
      [(7, AwarenessState.mk none),
       (5, AwarenessState.mk (some (TLRec.mk "p5" RecScope.presence 0)))]
      "instance_presence:9" (Or.inr (by decide))).1⟩
